import Mathlib

/-!
# OVR_Allocator.h: installable memory allocator

A shallow embedding of `LibOVRKernel/Src/Monterey/Kernel/OVR_Allocator.h`:

* the global allocator registry (`Allocator::pInstance`, `GetInstance`, `setInstance`);
* the virtual allocator interface with the in-class default of `AllocDebug`;
* the fallback aligned allocation built on `Alloc`/`Free`;
* the `Construct` / `ConstructArray` / `Destruct` / `DestructArray` helpers.

The header calls into code that lives elsewhere: the virtual functions of a concrete
allocator, and the constructors and the destructor of the template argument `T`.  Such code
is a parameter of the embedding (`AllocatorImpl`, `ObjType`), acting on a state of its own,
and every call into it is recorded in the `trace` of the `Machine`, so that statements like
"exactly one call" are statements about the trace.

A constructor of `T` may throw.  `ObjType` says, for each run of a constructor, whether it is
left by an exception, and `ConstructArray` then ends midway, as the note above it in the
header says: the elements already constructed stay constructed.

Pointers are addresses, natural numbers, with `0` the null pointer (the header itself
compares pointers with `0`).  C++ pointer arithmetic has no wrap-around semantics, so
addresses are not reduced modulo the word size.
-/

namespace OVR

/-! ## Global allocator registry -/

/-- An address; `0` is the null pointer. -/
abbrev Ptr := Nat

/-- The static data of class `Allocator`: `static Allocator* pInstance;`. -/
structure Registry where
  pInstance : Ptr
  deriving DecidableEq, Repr

/-- The registry at program start: a static pointer is zero-initialised. -/
def Registry.initial : Registry := { pInstance := 0 }

/-- The spec's state `Empty`: no allocator is held. -/
def Registry.isEmpty (r : Registry) : Bool := r.pInstance == 0

/-- The spec's state `Installed` with allocator `a`: the non-null `a` is held. -/
def Registry.isInstalledWith (r : Registry) (a : Ptr) : Bool := a != 0 && r.pInstance == a

/-- A failed `OVR_ASSERT`. -/
inductive ContractViolation where
  | assertionFailed
  deriving DecidableEq, Repr

/-- Modelled from the spec: the macro `OVR_ASSERT` comes from `OVR_Types.h`, which is not
among the sources.  Section 7 of the spec: a detected contract violation asserts/aborts rather
than returning a recoverable error.  A true condition lets the call go on. -/
def OVR_ASSERT (cond : Bool) : Except ContractViolation Unit :=
  if cond then .ok () else .error .assertionFailed

/-- The source function `static Allocator* GetInstance() { return pInstance; }`, as a
state-passing function: the returned pointer together with the registry after the call. -/
def Allocator.GetInstance (r : Registry) : Ptr × Registry :=
  (r.pInstance, r)

/-- The condition asserted by `setInstance`: `(pInstance == 0) || (palloc == 0)`. -/
def Allocator.setInstance_assertion (r : Registry) (palloc : Ptr) : Bool :=
  (r.pInstance == 0) || (palloc == 0)

/-- The source function
`static void setInstance(Allocator* palloc) { OVR_ASSERT(...); pInstance = palloc; }`. -/
def Allocator.setInstance (palloc : Ptr) (r : Registry) : Except ContractViolation Registry := do
  OVR_ASSERT (Allocator.setInstance_assertion r palloc)
  pure { r with pInstance := palloc }

/-- A finite sequence of `setInstance` calls, run from registry `r`: the list of registries
visited (the starting one first, then the one after each call), or the contract violation of
the first call whose assertion fails. -/
def Allocator.runInstalls (r : Registry) : List Ptr → Except ContractViolation (List Registry)
  | [] => .ok [r]
  | palloc :: rest => do
    let r1 ← Allocator.setInstance palloc r
    let visited ← Allocator.runInstalls r1 rest
    pure (r :: visited)

/-! ## Machine state and calls that leave the header -/

/-- A call from this header into code defined elsewhere. -/
inductive Event where
  /-- The virtual call `Alloc(size)`. -/
  | Alloc (size : Nat)
  /-- The virtual call `Realloc(p, newSize)`. -/
  | Realloc (p : Ptr) (newSize : Nat)
  /-- The virtual call `Free(p)`. -/
  | Free (p : Ptr)
  /-- A call of an overriding `AllocDebug(size, file, line)`. -/
  | AllocDebug (size : Nat) (file : String) (line : Nat)
  /-- The default constructor of `T` run on the storage at `loc`. -/
  | construct (loc : Ptr)
  /-- The copy constructor of `T` run on the storage at `loc`, copying the object at `source`. -/
  | constructCopy (loc : Ptr) (source : Ptr)
  /-- The destructor of `T` run on the object at `loc`. -/
  | destruct (loc : Ptr)
  deriving DecidableEq, Repr

/-- Whether the event is a call that obtains or releases memory through the allocator. -/
def Event.isAllocatorCall : Event → Bool
  | .Alloc _ => true
  | .Realloc _ _ => true
  | .Free _ => true
  | .AllocDebug _ _ _ => true
  | .construct _ => false
  | .constructCopy _ _ => false
  | .destruct _ => false

/-- Whether the event is a run of an initializer of `T` (default or copy constructor). -/
def Event.isInitializer : Event → Bool
  | .construct _ => true
  | .constructCopy _ _ => true
  | _ => false

/-- Whether the event is a run of the finalizer of `T` (its destructor). -/
def Event.isFinalizer : Event → Bool
  | .destruct _ => true
  | _ => false

/-- The state the header's functions run in: the calls made so far into outside code, the
pointer-sized words the header's own code has stored in memory (by address), and the state
`ext` owned by the outside code (the allocator's heap, the objects of type `T`). -/
structure Machine (σ : Type) where
  trace : List Event
  mem : Ptr → Ptr
  ext : σ

/-- Write the pointer-sized word `val` at address `addr`. -/
def Machine.store {σ : Type} (m : Machine σ) (addr val : Ptr) : Machine σ :=
  { m with mem := fun x => if x = addr then val else m.mem x }

/-- Read the pointer-sized word at address `addr`. -/
def Machine.load {σ : Type} (m : Machine σ) (addr : Ptr) : Ptr :=
  m.mem addr

/-- Record the call `e` and apply the effect `f` of the called code to its state. -/
def Machine.call {σ : Type} (m : Machine σ) (e : Event) (f : σ → σ) : Machine σ :=
  { m with trace := m.trace ++ [e], ext := f m.ext }

/-! ## Allocator interface -/

/-- A concrete allocator (a class derived from `Allocator`) over its own state `σ`: bodies for
the three pure virtual functions `Alloc`, `Realloc`, `Free`, and, when the class overrides
it, a body for `AllocDebug`. -/
structure AllocatorImpl (σ : Type) where
  Alloc : Nat → σ → Ptr × σ
  Realloc : Ptr → Nat → σ → Ptr × σ
  Free : Ptr → σ → σ
  AllocDebug_override : Option (Nat → String → Nat → σ → Ptr × σ)

/-- The virtual call `Alloc(size)` on allocator `a`. -/
def AllocatorImpl.callAlloc {σ : Type} (a : AllocatorImpl σ) (size : Nat) (m : Machine σ) :
    Ptr × Machine σ :=
  ((a.Alloc size m.ext).1, m.call (.Alloc size) (fun s => (a.Alloc size s).2))

/-- The virtual call `Free(p)` on allocator `a`. -/
def AllocatorImpl.callFree {σ : Type} (a : AllocatorImpl σ) (p : Ptr) (m : Machine σ) :
    Machine σ :=
  m.call (.Free p) (a.Free p)

/-- The in-class body of `Allocator::AllocDebug`:
`virtual void* AllocDebug(size_t size, const char* /*file*/, unsigned /*line*/) { return Alloc(size); }`. -/
def Allocator.AllocDebug {σ : Type} (a : AllocatorImpl σ) (size : Nat) (_file : String)
    (_line : Nat) (m : Machine σ) : Ptr × Machine σ :=
  a.callAlloc size m

/-- The virtual call `AllocDebug(size, file, line)` on allocator `a`: the override of the
concrete class when there is one, the body of `Allocator::AllocDebug` otherwise. -/
def AllocatorImpl.callAllocDebug {σ : Type} (a : AllocatorImpl σ) (size : Nat) (file : String)
    (line : Nat) (m : Machine σ) : Ptr × Machine σ :=
  match a.AllocDebug_override with
  | some f =>
    ((f size file line m.ext).1,
      m.call (.AllocDebug size file line) (fun s => (f size file line s).2))
  | none => Allocator.AllocDebug a size file line m

/-! ## Aligned allocation on top of `Alloc` / `Free` -/

/-- Modelled from the spec: rounding an address up to a multiple of `align`, "the first address
at or after `addr` that satisfies the alignment constraint" of section 4.2 step 3.  The body of
`Allocator::AllocAligned` (`OVR_Allocator.cpp`) is not among the sources. -/
def alignUp (addr align : Nat) : Nat :=
  (addr + (align - 1)) / align * align

/-- Modelled from the spec: the default `Allocator::AllocAligned(size, align)`, declared in
the header, with its body in `OVR_Allocator.cpp`, which is not among the sources.  Section 4.2,
steps 1 to 4: `totalSize = size + align - 1 + headerReserve`; `Alloc(totalSize)`, a null result
being passed on; the aligned address is the first one at or after `raw + headerReserve`; the
raw pointer is stored immediately before the aligned address; the aligned address is returned.
`headerReserve` is the size of one pointer. -/
def Allocator.AllocAligned {σ : Type} (headerReserve : Nat) (a : AllocatorImpl σ)
    (size align : Nat) (m : Machine σ) : Ptr × Machine σ :=
  let totalSize := size + align - 1 + headerReserve
  let r := a.callAlloc totalSize m
  let raw := r.1
  if raw = 0 then
    (0, r.2)
  else
    let aligned := alignUp (raw + headerReserve) align
    (aligned, r.2.store (aligned - headerReserve) raw)

/-- Modelled from the spec: the default `Allocator::FreeAligned(p)`, declared in the header,
with its body in `OVR_Allocator.cpp`, which is not among the sources.  Section 4.2, step 5:
read back the stored raw pointer from just before the aligned pointer, then `Free` it. -/
def Allocator.FreeAligned {σ : Type} (headerReserve : Nat) (a : AllocatorImpl σ)
    (p : Ptr) (m : Machine σ) : Machine σ :=
  let raw := m.load (p - headerReserve)
  a.callFree raw m

/-! ## Construct / Destruct -/

/-- The template argument `T` of the helpers, as far as they use it: `sizeof(T)`, and the
effect on the outside state of its default constructor, copy constructor and destructor, each
run at an address (the copy constructor also gets the address of its source).  A run of a
constructor may be left by a C++ exception: `ctorThrows loc s` and `copyCtorThrows loc source s`
say whether the run started in state `s` is, and `ctor loc s`, `copyCtor loc source s` are then
the state at the throw.  The destructor returns (destructors are `noexcept`). -/
structure ObjType (σ : Type) where
  sizeof : Nat
  ctor : Ptr → σ → σ
  copyCtor : Ptr → Ptr → σ → σ
  dtor : Ptr → σ → σ
  ctorThrows : Ptr → σ → Bool
  copyCtorThrows : Ptr → Ptr → σ → Bool

/-- How a call ends: it returns to its caller, or a C++ exception leaves it. -/
inductive Completion where
  | returned
  | threw
  deriving DecidableEq, Repr

/-- Placement new of the header: `void* operator new(size_t n, void* ptr) { OVR_UNUSED(n); return ptr; }`. -/
def placementNew (_n : Nat) (ptr : Ptr) : Ptr := ptr

/-- The helper `template <class T> T* Construct(void* p) { return ::new (p) T; }`: placement new
yields the address, the default constructor of `T` runs there, the address is returned.  The
pair is the address returned and the machine after the constructor has run; whether the
constructor leaves the call by an exception instead of returning is `Construct_throws`. -/
def Construct {σ : Type} (T : ObjType σ) (p : Ptr) (m : Machine σ) : Ptr × Machine σ :=
  let q := placementNew T.sizeof p
  (q, m.call (.construct q) (T.ctor q))

/-- Whether the call `Construct<T>(p)` on machine `m` is left by an exception: the one thrown
by the default constructor that the new-expression runs at the placement address (the
placement `operator delete(void*, void*)` called on the way out does nothing). -/
def Construct_throws {σ : Type} (T : ObjType σ) (p : Ptr) (m : Machine σ) : Bool :=
  T.ctorThrows (placementNew T.sizeof p) m.ext

/-- The helper
`template <class T> T* Construct(void* p, const T& source) { return ::new (p) T(source); }`. -/
def Construct_source {σ : Type} (T : ObjType σ) (p : Ptr) (source : Ptr) (m : Machine σ) :
    Ptr × Machine σ :=
  let q := placementNew T.sizeof p
  (q, m.call (.constructCopy q source) (T.copyCtor q source))

/-- Whether the call `Construct<T>(p, source)` on machine `m` is left by an exception of the
copy constructor. -/
def Construct_source_throws {σ : Type} (T : ObjType σ) (p : Ptr) (source : Ptr)
    (m : Machine σ) : Bool :=
  T.copyCtorThrows (placementNew T.sizeof p) source m.ext

/-- The loop of `ConstructArray(void* p, size_t count)`:
`for (size_t i = 0; i < count; ++i, pdata += sizeof(T)) { Construct<T>(pdata); }`,
from the loop state `i`, `pdata`.  The loop has no handler: when `Construct<T>(pdata)` is left
by an exception, so is the loop, with the machine as it is then (the note above the function
in the header: the elements constructed so far are not destructed). -/
def ConstructArray.loop {σ : Type} (T : ObjType σ) (count : Nat) (i : Nat) (pdata : Ptr)
    (m : Machine σ) : Completion × Machine σ :=
  if i < count then
    if Construct_throws T pdata m then
      (.threw, (Construct T pdata m).2)
    else
      ConstructArray.loop T count (i + 1) (pdata + T.sizeof) (Construct T pdata m).2
  else
    (.returned, m)
termination_by count - i

/-- The helper `template <class T> void ConstructArray(void* p, size_t count)`: how the call
ends, and the machine then. -/
def ConstructArray {σ : Type} (T : ObjType σ) (p : Ptr) (count : Nat) (m : Machine σ) :
    Completion × Machine σ :=
  ConstructArray.loop T count 0 p m

/-- The loop of `ConstructArray(void* p, size_t count, const T& source)`:
`for (size_t i = 0; i < count; ++i, pdata += sizeof(T)) { Construct<T>(pdata, source); }`. -/
def ConstructArray_source.loop {σ : Type} (T : ObjType σ) (count : Nat) (source : Ptr)
    (i : Nat) (pdata : Ptr) (m : Machine σ) : Completion × Machine σ :=
  if i < count then
    if Construct_source_throws T pdata source m then
      (.threw, (Construct_source T pdata source m).2)
    else
      ConstructArray_source.loop T count source (i + 1) (pdata + T.sizeof)
        (Construct_source T pdata source m).2
  else
    (.returned, m)
termination_by count - i

/-- The helper `template <class T> void ConstructArray(void* p, size_t count, const T& source)`:
how the call ends, and the machine then. -/
def ConstructArray_source {σ : Type} (T : ObjType σ) (p : Ptr) (count : Nat) (source : Ptr)
    (m : Machine σ) : Completion × Machine σ :=
  ConstructArray_source.loop T count source 0 p m

/-- The helper `template <class T> void Destruct(T* pobj) { pobj->~T(); }`. -/
def Destruct {σ : Type} (T : ObjType σ) (pobj : Ptr) (m : Machine σ) : Machine σ :=
  m.call (.destruct pobj) (T.dtor pobj)

/-- The loop of `DestructArray(T* pobj, size_t count)`:
`for (size_t i = 0; i < count; ++i, ++pobj) pobj->~T();`, where `++pobj` on a `T*` moves the
address on by `sizeof(T)`. -/
def DestructArray.loop {σ : Type} (T : ObjType σ) (count : Nat) (i : Nat) (pobj : Ptr)
    (m : Machine σ) : Machine σ :=
  if i < count then
    DestructArray.loop T count (i + 1) (pobj + T.sizeof) (m.call (.destruct pobj) (T.dtor pobj))
  else
    m
termination_by count - i

/-- The helper `template <class T> void DestructArray(T* pobj, size_t count)`. -/
def DestructArray {σ : Type} (T : ObjType σ) (pobj : Ptr) (count : Nat) (m : Machine σ) :
    Machine σ :=
  DestructArray.loop T count 0 pobj m

/-! ## Concrete instances used to run the definitions -/

/-- A machine with no call made yet, all stored words zero, and outside state `s`. -/
def Machine.start {σ : Type} (s : σ) : Machine σ :=
  { trace := [], mem := fun _ => 0, ext := s }

/-- A bump allocator that does not override `AllocDebug`: its state is the next free address;
`Alloc` hands it out and moves it on by the size (by one for size zero); `Free` does
nothing. -/
def bumpAllocator : AllocatorImpl Nat where
  Alloc := fun size next => (next, next + max size 1)
  Realloc := fun _ newSize next => (next, next + max newSize 1)
  Free := fun _ next => next
  AllocDebug_override := none

/-- A type of size 4 whose constructors and destructor write into a list of live addresses;
its constructors never throw. -/
def liveSetType : ObjType (List Ptr) where
  sizeof := 4
  ctor := fun loc live => loc :: live
  copyCtor := fun loc _ live => loc :: live
  dtor := fun loc live => live.erase loc
  ctorThrows := fun _ _ => false
  copyCtorThrows := fun _ _ _ => false

/-- A type of size 4 like `liveSetType`, whose constructors throw when run at address `bad`,
leaving no live object there. -/
def throwingType (bad : Ptr) : ObjType (List Ptr) where
  sizeof := 4
  ctor := fun loc live => if loc = bad then live else loc :: live
  copyCtor := fun loc _ live => if loc = bad then live else loc :: live
  dtor := fun loc live => live.erase loc
  ctorThrows := fun loc _ => loc == bad
  copyCtorThrows := fun loc _ _ => loc == bad

/-! ### Basic facts about the registry -/

theorem Allocator.setInstance_ok_of_assertion (palloc : Ptr) (r : Registry)
    (h : Allocator.setInstance_assertion r palloc = true) :
    Allocator.setInstance palloc r = .ok { pInstance := palloc } := by
  simp [Allocator.setInstance, OVR_ASSERT, h, bind, Except.bind, pure, Except.pure]

theorem Allocator.setInstance_error_of_not_assertion (palloc : Ptr) (r : Registry)
    (h : Allocator.setInstance_assertion r palloc = false) :
    Allocator.setInstance palloc r = .error .assertionFailed := by
  simp [Allocator.setInstance, OVR_ASSERT, h, bind, Except.bind]

theorem Allocator.setInstance_assertion_iff (palloc : Ptr) (r : Registry) :
    Allocator.setInstance_assertion r palloc = true ↔ r.pInstance = 0 ∨ palloc = 0 := by
  simp [Allocator.setInstance_assertion]

theorem Allocator.setInstance_eq_ok_iff (palloc : Ptr) (r r1 : Registry) :
    Allocator.setInstance palloc r = .ok r1 ↔
      (Allocator.setInstance_assertion r palloc = true ∧ r1 = { pInstance := palloc }) := by
  cases h : Allocator.setInstance_assertion r palloc
  · rw [Allocator.setInstance_error_of_not_assertion palloc r h]
    simp
  · rw [Allocator.setInstance_ok_of_assertion palloc r h]
    constructor
    · intro h1
      injection h1 with h1
      exact ⟨rfl, h1.symm⟩
    · rintro ⟨_, h1⟩
      rw [h1]

theorem Allocator.runInstalls_cons_ok (r : Registry) (palloc : Ptr) (rest : List Ptr)
    (visited : List Registry) :
    Allocator.runInstalls r (palloc :: rest) = .ok visited ↔
      (Allocator.setInstance_assertion r palloc = true ∧
        ∃ tail, Allocator.runInstalls { pInstance := palloc } rest = .ok tail ∧
          visited = r :: tail) := by
  cases h : Allocator.setInstance_assertion r palloc
  · simp [Allocator.runInstalls, Allocator.setInstance_error_of_not_assertion palloc r h,
      bind, Except.bind]
  · simp only [Allocator.runInstalls, Allocator.setInstance_ok_of_assertion palloc r h,
      bind, Except.bind, true_and]
    cases h2 : Allocator.runInstalls { pInstance := palloc } rest with
    | error e => simp
    | ok tail =>
      simp only [pure, Except.pure, Except.ok.injEq, exists_eq_left']
      exact eq_comm

theorem Allocator.runInstalls_head (r : Registry) (calls : List Ptr) (visited : List Registry)
    (h : Allocator.runInstalls r calls = .ok visited) : visited[0]? = some r := by
  cases calls with
  | nil =>
    simp only [Allocator.runInstalls, Except.ok.injEq] at h
    simp [← h]
  | cons palloc rest =>
    obtain ⟨_, tail, _, h3⟩ := (Allocator.runInstalls_cons_ok r palloc rest visited).1 h
    simp [h3]

theorem Allocator.runInstalls_length (r : Registry) (calls : List Ptr) (visited : List Registry)
    (h : Allocator.runInstalls r calls = .ok visited) : visited.length = calls.length + 1 := by
  induction calls generalizing r visited with
  | nil =>
    simp only [Allocator.runInstalls, Except.ok.injEq] at h
    simp [← h]
  | cons palloc rest ih =>
    obtain ⟨_, tail, h2, h3⟩ := (Allocator.runInstalls_cons_ok r palloc rest visited).1 h
    simp [h3, ih _ tail h2]

/-- Two consecutive registries of an accepted run are never both non-null. -/
theorem Allocator.runInstalls_step (r : Registry) (calls : List Ptr) (visited : List Registry)
    (h : Allocator.runInstalls r calls = .ok visited) (i : Nat) (ra rb : Registry)
    (ha : visited[i]? = some ra) (hb : visited[i + 1]? = some rb) :
    ra.pInstance = 0 ∨ rb.pInstance = 0 := by
  induction calls generalizing r visited i with
  | nil =>
    simp only [Allocator.runInstalls, Except.ok.injEq] at h
    simp [← h] at hb
  | cons palloc rest ih =>
    obtain ⟨h1, tail, h2, h3⟩ := (Allocator.runInstalls_cons_ok r palloc rest visited).1 h
    subst h3
    cases i with
    | zero =>
      have hhead := Allocator.runInstalls_head _ rest tail h2
      simp only [List.getElem?_cons_zero, Option.some.injEq] at ha
      simp only [zero_add, List.getElem?_cons_succ] at hb
      rw [hhead] at hb
      simp only [Option.some.injEq] at hb
      subst ha
      subst hb
      exact (Allocator.setInstance_assertion_iff palloc r).1 h1
    | succ n =>
      simp only [List.getElem?_cons_succ] at ha hb
      exact ih _ tail h2 n ha hb

/-- The registry after the `i`-th call of an accepted run holds the argument of that call. -/
theorem Allocator.runInstalls_get (r : Registry) (calls : List Ptr) (visited : List Registry)
    (h : Allocator.runInstalls r calls = .ok visited) (i : Nat) (palloc : Ptr)
    (hc : calls[i]? = some palloc) : visited[i + 1]? = some { pInstance := palloc } := by
  induction calls generalizing r visited i with
  | nil => simp at hc
  | cons p0 rest ih =>
    obtain ⟨_, tail, h2, h3⟩ := (Allocator.runInstalls_cons_ok r p0 rest visited).1 h
    subst h3
    cases i with
    | zero =>
      simp only [List.getElem?_cons_zero, Option.some.injEq] at hc
      subst hc
      simpa using Allocator.runInstalls_head _ rest tail h2
    | succ n =>
      simp only [List.getElem?_cons_succ] at hc ⊢
      exact ih _ tail h2 n hc

/-! ### The registry: `GetInstance` -/

/-- C1 (as stated, refuted): `GetInstance` on the Empty registry returns the null pointer
and leaves the registry Empty, at program start as well as after `Install(custom)` followed
by `Install(null)`; so it is not true that on every Empty registry the result is non-null and
installed afterwards. -/
theorem Allocator.GetInstance_empty_counterexample :
    (Allocator.GetInstance Registry.initial).1 = 0 ∧
    (Allocator.GetInstance Registry.initial).2.isEmpty = true ∧
    ((Allocator.setInstance 4096 Registry.initial >>= Allocator.setInstance 0).map
        Allocator.GetInstance) = .ok (0, { pInstance := 0 }) ∧
    ¬ (∀ r : Registry, r.isEmpty = true →
        (Allocator.GetInstance r).1 ≠ 0 ∧
        (Allocator.GetInstance r).2.isInstalledWith (Allocator.GetInstance r).1 = true) := by
  refine ⟨rfl, rfl, rfl, ?_⟩
  intro h
  exact (h Registry.initial rfl).1 rfl

/-- C1 (amended): `GetInstance` returns the pointer the registry holds and leaves the registry
as it was.  On an Empty registry it returns null and the registry stays Empty, also on the
registry reached by `Install(custom)` followed by `Install(null)`; on a registry Installed
with `a` it returns `a`. -/
theorem Allocator.GetInstance_reads_registry (r : Registry) (custom a : Ptr) :
    (Allocator.GetInstance r).1 = r.pInstance ∧
    (Allocator.GetInstance r).2 = r ∧
    (r.isEmpty = true →
      (Allocator.GetInstance r).1 = 0 ∧ (Allocator.GetInstance r).2.isEmpty = true) ∧
    (r.isEmpty = true →
      ∃ r1 r2, Allocator.setInstance custom r = .ok r1 ∧ Allocator.setInstance 0 r1 = .ok r2 ∧
        (Allocator.GetInstance r2).1 = 0 ∧ (Allocator.GetInstance r2).2.isEmpty = true) ∧
    (r.isInstalledWith a = true →
      (Allocator.GetInstance r).1 = a ∧ (Allocator.GetInstance r).2.isInstalledWith a = true) := by
  refine ⟨rfl, rfl, ?_, ?_, ?_⟩
  · intro h
    simp only [Registry.isEmpty, beq_iff_eq] at h
    simp [Allocator.GetInstance, Registry.isEmpty, h]
  · intro h
    simp only [Registry.isEmpty, beq_iff_eq] at h
    refine ⟨{ pInstance := custom }, { pInstance := 0 }, ?_, ?_, rfl, rfl⟩
    · exact Allocator.setInstance_ok_of_assertion custom r
        (by simp [Allocator.setInstance_assertion, h])
    · exact Allocator.setInstance_ok_of_assertion 0 _ (by simp [Allocator.setInstance_assertion])
  · intro h
    simp only [Registry.isInstalledWith, Bool.and_eq_true, bne_iff_ne, ne_eq, beq_iff_eq] at h
    simp [Allocator.GetInstance, Registry.isInstalledWith, h.1, h.2]

theorem Allocator.GetInstance_reads_registry_witness :
    (Allocator.GetInstance Registry.initial).1 = 0 ∧
    (Allocator.GetInstance Registry.initial).2.isEmpty = true :=
  (Allocator.GetInstance_reads_registry Registry.initial 4096 4096).2.2.1 (by decide)

/-! ### The registry: `setInstance` -/

/-- C2: along every sequence of `setInstance` calls from the Empty registry in which every
assertion holds, two registries that follow one another are never both non-null (so the
registry never goes directly from a non-null `a` to a different non-null `b`), and two
different non-null allocators held at points `i < j` have a point strictly between them at
which the registry is Empty. -/
theorem Allocator.setInstance_trace_invariant (calls : List Ptr) (visited : List Registry)
    (h : Allocator.runInstalls Registry.initial calls = .ok visited) :
    (∀ (i : Nat) (ra rb : Registry), visited[i]? = some ra → visited[i + 1]? = some rb →
      ¬ (ra.pInstance ≠ 0 ∧ rb.pInstance ≠ 0 ∧ ra.pInstance ≠ rb.pInstance)) ∧
    (∀ (i j : Nat) (ra rb : Registry), i < j → visited[i]? = some ra → visited[j]? = some rb →
      ra.pInstance ≠ 0 → rb.pInstance ≠ 0 → ra.pInstance ≠ rb.pInstance →
      ∃ (k : Nat) (rk : Registry), i < k ∧ k < j ∧ visited[k]? = some rk ∧ rk.isEmpty = true) := by
  constructor
  · intro i ra rb ha hb hne
    rcases Allocator.runInstalls_step _ calls visited h i ra rb ha hb with h0 | h0
    · exact hne.1 h0
    · exact hne.2.1 h0
  · intro i j ra rb hij ha hb hane hbne _
    have hjlen : j < visited.length := (List.getElem?_eq_some_iff.1 hb).1
    have hlt : i + 1 < visited.length := lt_of_le_of_lt hij hjlen
    have hk : visited[i + 1]? = some (visited[i + 1]) := List.getElem?_eq_getElem hlt
    have hzero : (visited[i + 1]).pInstance = 0 := by
      rcases Allocator.runInstalls_step _ calls visited h i ra _ ha hk with h0 | h0
      · exact absurd h0 hane
      · exact h0
    have hne : i + 1 ≠ j := by
      intro heq
      subst heq
      rw [hk] at hb
      simp only [Option.some.injEq] at hb
      rw [← hb] at hbne
      exact hbne hzero
    refine ⟨i + 1, visited[i + 1], Nat.lt_succ_self i, lt_of_le_of_ne hij hne, hk, ?_⟩
    simp [Registry.isEmpty, hzero]

theorem Allocator.setInstance_trace_invariant_witness :
    Allocator.runInstalls Registry.initial [4096, 0, 8192] =
        .ok [⟨0⟩, ⟨4096⟩, ⟨0⟩, ⟨8192⟩] ∧
    ∃ (k : Nat) (rk : Registry), 1 < k ∧ k < 3 ∧
      [(⟨0⟩ : Registry), ⟨4096⟩, ⟨0⟩, ⟨8192⟩][k]? = some rk ∧ rk.isEmpty = true :=
  ⟨rfl,
    (Allocator.setInstance_trace_invariant [4096, 0, 8192] [⟨0⟩, ⟨4096⟩, ⟨0⟩, ⟨8192⟩]
      rfl).2 1 3 ⟨4096⟩ ⟨8192⟩ (by decide) (by decide) (by decide) (by decide)
      (by decide) (by decide)⟩

/-- C3: a call `setInstance(p)` whose assertion holds returns normally and leaves exactly `p`
in the registry.  So `Install(a)` with `a` non-null on an Empty registry gives a registry
Installed with `a`, from which `GetInstance()` returns `a`; and `Install(null)` on a registry
Installed with `a` gives the Empty registry, from which `GetInstance()` returns null. -/
theorem Allocator.setInstance_postcondition (r : Registry) (p a : Ptr) :
    (Allocator.setInstance_assertion r p = true →
      ∃ r1, Allocator.setInstance p r = .ok r1 ∧ r1.pInstance = p ∧
        (Allocator.GetInstance r1).1 = p) ∧
    (r.isEmpty = true → a ≠ 0 →
      ∃ r1, Allocator.setInstance a r = .ok r1 ∧ r1.isInstalledWith a = true ∧
        (Allocator.GetInstance r1).1 = a) ∧
    (r.isInstalledWith a = true →
      ∃ r1, Allocator.setInstance 0 r = .ok r1 ∧ r1.isEmpty = true ∧
        (Allocator.GetInstance r1).1 = 0 ∧ (Allocator.GetInstance r1).2.isEmpty = true) := by
  refine ⟨?_, ?_, ?_⟩
  · intro h
    exact ⟨_, Allocator.setInstance_ok_of_assertion p r h, rfl, rfl⟩
  · intro h ha
    simp only [Registry.isEmpty, beq_iff_eq] at h
    refine ⟨_, Allocator.setInstance_ok_of_assertion a r
      (by simp [Allocator.setInstance_assertion, h]), ?_, rfl⟩
    simp [Registry.isInstalledWith, ha]
  · intro _
    exact ⟨_, Allocator.setInstance_ok_of_assertion 0 r
      (by simp [Allocator.setInstance_assertion]), rfl, rfl, rfl⟩

theorem Allocator.setInstance_postcondition_witness :
    ∃ r1, Allocator.setInstance 4096 Registry.initial = .ok r1 ∧
      r1.isInstalledWith 4096 = true ∧ (Allocator.GetInstance r1).1 = 4096 :=
  (Allocator.setInstance_postcondition Registry.initial 4096 4096).2.1 (by decide) (by decide)

/-- C4: with `a` and `b` non-null and different, `setInstance(b)` on a registry Installed
with `a` fails its assertion: the asserted condition is false and the call ends in a contract
violation instead of a new registry. -/
theorem Allocator.setInstance_second_allocator_rejected (a b : Ptr) (r : Registry)
    (ha : a ≠ 0) (hb : b ≠ 0) (_hab : a ≠ b) (hr : r.isInstalledWith a = true) :
    Allocator.setInstance_assertion r b = false ∧
    Allocator.setInstance b r = .error .assertionFailed ∧
    ¬ ∃ r1, Allocator.setInstance b r = .ok r1 := by
  simp only [Registry.isInstalledWith, Bool.and_eq_true, bne_iff_ne, ne_eq, beq_iff_eq] at hr
  have h : Allocator.setInstance_assertion r b = false := by
    simp [Allocator.setInstance_assertion, hr.2, ha, hb]
  refine ⟨h, Allocator.setInstance_error_of_not_assertion b r h, ?_⟩
  rw [Allocator.setInstance_error_of_not_assertion b r h]
  simp

theorem Allocator.setInstance_second_allocator_rejected_witness :
    Allocator.setInstance_assertion ⟨4096⟩ 8192 = false ∧
    Allocator.setInstance 8192 ⟨4096⟩ = .error .assertionFailed ∧
    ¬ ∃ r1, Allocator.setInstance 8192 ⟨4096⟩ = .ok r1 :=
  Allocator.setInstance_second_allocator_rejected 4096 8192 ⟨4096⟩ (by decide) (by decide)
    (by decide) (by decide)

/-- C10: the assertion of `setInstance(palloc)` holds exactly when the registry is Empty or
`palloc` is null, and the call returns normally exactly then.  So installing again the very
non-null allocator that is installed fails the assertion, and `Install(null)` is accepted in
every state, leaving an Empty registry Empty. -/
theorem Allocator.setInstance_assertion_characterised (r : Registry) (palloc a : Ptr) :
    (Allocator.setInstance_assertion r palloc = true ↔ (r.isEmpty = true ∨ palloc = 0)) ∧
    ((∃ r1, Allocator.setInstance palloc r = .ok r1) ↔ (r.isEmpty = true ∨ palloc = 0)) ∧
    (r.isInstalledWith a = true →
      Allocator.setInstance_assertion r a = false ∧
      Allocator.setInstance a r = .error .assertionFailed) ∧
    (Allocator.setInstance_assertion r 0 = true ∧
      Allocator.setInstance 0 r = .ok { pInstance := 0 }) ∧
    (r.isEmpty = true → Allocator.setInstance 0 r = .ok r) := by
  have hiff : Allocator.setInstance_assertion r palloc = true ↔
      (r.isEmpty = true ∨ palloc = 0) := by
    simp [Allocator.setInstance_assertion, Registry.isEmpty]
  have h0 : Allocator.setInstance_assertion r 0 = true := by
    simp [Allocator.setInstance_assertion]
  refine ⟨hiff, ?_, ?_, ⟨h0, Allocator.setInstance_ok_of_assertion 0 r h0⟩, ?_⟩
  · rw [← hiff]
    constructor
    · rintro ⟨r1, h1⟩
      exact ((Allocator.setInstance_eq_ok_iff palloc r r1).1 h1).1
    · intro h
      exact ⟨_, Allocator.setInstance_ok_of_assertion palloc r h⟩
  · intro hr
    simp only [Registry.isInstalledWith, Bool.and_eq_true, bne_iff_ne, ne_eq, beq_iff_eq] at hr
    have h : Allocator.setInstance_assertion r a = false := by
      simp [Allocator.setInstance_assertion, hr.2, hr.1]
    exact ⟨h, Allocator.setInstance_error_of_not_assertion a r h⟩
  · intro h
    simp only [Registry.isEmpty, beq_iff_eq] at h
    rw [Allocator.setInstance_ok_of_assertion 0 r h0]
    cases r
    simp_all

theorem Allocator.setInstance_assertion_characterised_witness :
    Allocator.setInstance_assertion ⟨4096⟩ 4096 = false ∧
    Allocator.setInstance 4096 ⟨4096⟩ = .error .assertionFailed :=
  (Allocator.setInstance_assertion_characterised ⟨4096⟩ 4096 4096).2.2.1 (by decide)

/-! ### Allocator interface -/

/-- C5: on an allocator that does not override `AllocDebug`, the call
`AllocDebug(size, file, line)` is the call `Alloc(size)`: it makes exactly that one call into
the allocator, returns what `Alloc(size)` returns and has its effect, whatever `file` and
`line` are. -/
theorem AllocatorImpl.callAllocDebug_default {σ : Type} (a : AllocatorImpl σ)
    (h : a.AllocDebug_override = none) (size : Nat) (file : String) (line : Nat)
    (m : Machine σ) :
    a.callAllocDebug size file line m = a.callAlloc size m ∧
    (a.callAllocDebug size file line m).1 = (a.Alloc size m.ext).1 ∧
    (a.callAllocDebug size file line m).2.trace = m.trace ++ [Event.Alloc size] ∧
    (a.callAllocDebug size file line m).2.ext = (a.Alloc size m.ext).2 ∧
    (a.callAllocDebug size file line m).2.mem = m.mem ∧
    (∀ (file2 : String) (line2 : Nat),
      a.callAllocDebug size file2 line2 m = a.callAllocDebug size file line m) := by
  have h1 : ∀ (f : String) (l : Nat), a.callAllocDebug size f l m = a.callAlloc size m := by
    intro f l
    simp [AllocatorImpl.callAllocDebug, h, Allocator.AllocDebug]
  refine ⟨h1 file line, ?_, ?_, ?_, ?_, ?_⟩
  · rw [h1]; rfl
  · rw [h1]; rfl
  · rw [h1]; rfl
  · rw [h1]; rfl
  · intro f l
    rw [h1, h1]

theorem AllocatorImpl.callAllocDebug_default_witness :
    (bumpAllocator.callAllocDebug 100 "OVR_String.cpp" 42 (Machine.start 4096)).1 = 4096 ∧
    (bumpAllocator.callAllocDebug 100 "OVR_String.cpp" 42 (Machine.start 4096)).2.trace =
      [] ++ [Event.Alloc 100] :=
  ⟨(AllocatorImpl.callAllocDebug_default bumpAllocator rfl 100 "OVR_String.cpp" 42
      (Machine.start 4096)).2.1,
   (AllocatorImpl.callAllocDebug_default bumpAllocator rfl 100 "OVR_String.cpp" 42
      (Machine.start 4096)).2.2.1⟩

/-! ### Aligned allocation -/

theorem alignUp_mod (addr align : Nat) : alignUp addr align % align = 0 := by
  simp [alignUp]

theorem le_alignUp (addr align : Nat) (h : 0 < align) : addr ≤ alignUp addr align := by
  unfold alignUp
  have h1 := Nat.div_add_mod (addr + (align - 1)) align
  have h2 := Nat.mod_lt (addr + (align - 1)) h
  rw [Nat.mul_comm] at h1
  omega

theorem alignUp_lt (addr align : Nat) (h : 0 < align) : alignUp addr align < addr + align := by
  unfold alignUp
  have h1 := Nat.div_add_mod (addr + (align - 1)) align
  rw [Nat.mul_comm] at h1
  omega

/-- The rounded address is the first aligned address at or after `addr`. -/
theorem alignUp_least (addr align x : Nat) (h : 0 < align) (hx : addr ≤ x)
    (hmod : x % align = 0) : alignUp addr align ≤ x := by
  obtain ⟨c, hc⟩ := Nat.dvd_of_mod_eq_zero hmod
  unfold alignUp
  subst hc
  rw [Nat.mul_comm align c]
  apply Nat.mul_le_mul_right
  apply Nat.le_of_lt_succ
  rw [Nat.div_lt_iff_lt_mul h, Nat.succ_mul]
  rw [Nat.mul_comm align c] at hx
  omega

theorem Allocator.AllocAligned_of_raw_ne_zero {σ : Type} (headerReserve : Nat)
    (a : AllocatorImpl σ) (size align : Nat) (m : Machine σ)
    (hraw : (a.Alloc (size + align - 1 + headerReserve) m.ext).1 ≠ 0) :
    Allocator.AllocAligned headerReserve a size align m =
      (alignUp ((a.Alloc (size + align - 1 + headerReserve) m.ext).1 + headerReserve) align,
        (a.callAlloc (size + align - 1 + headerReserve) m).2.store
          (alignUp ((a.Alloc (size + align - 1 + headerReserve) m.ext).1 + headerReserve) align
            - headerReserve)
          (a.Alloc (size + align - 1 + headerReserve) m.ext).1) := by
  simp only [Allocator.AllocAligned, AllocatorImpl.callAlloc]
  rw [if_neg hraw]

theorem Allocator.AllocAligned_of_raw_eq_zero {σ : Type} (headerReserve : Nat)
    (a : AllocatorImpl σ) (size align : Nat) (m : Machine σ)
    (hraw : (a.Alloc (size + align - 1 + headerReserve) m.ext).1 = 0) :
    Allocator.AllocAligned headerReserve a size align m =
      (0, (a.callAlloc (size + align - 1 + headerReserve) m).2) := by
  simp only [Allocator.AllocAligned, AllocatorImpl.callAlloc]
  rw [if_pos hraw]

/-- On the model, the header word and the `size` bytes handed to the caller lie inside the raw
block of `totalSize` bytes. -/
theorem Allocator.AllocAligned_within_block {σ : Type} (headerReserve : Nat)
    (a : AllocatorImpl σ) (size align : Nat) (m : Machine σ) (halign : 0 < align)
    (hraw : (a.Alloc (size + align - 1 + headerReserve) m.ext).1 ≠ 0) :
    (a.Alloc (size + align - 1 + headerReserve) m.ext).1 ≤
      (Allocator.AllocAligned headerReserve a size align m).1 - headerReserve ∧
    (Allocator.AllocAligned headerReserve a size align m).1 + size ≤
      (a.Alloc (size + align - 1 + headerReserve) m.ext).1 +
        (size + align - 1 + headerReserve) := by
  rw [Allocator.AllocAligned_of_raw_ne_zero headerReserve a size align m hraw]
  generalize (a.Alloc (size + align - 1 + headerReserve) m.ext).1 = raw
  have h1 := le_alignUp (raw + headerReserve) align halign
  have h2 := alignUp_lt (raw + headerReserve) align halign
  generalize alignUp (raw + headerReserve) align = p at h1 h2 ⊢
  have h3 : @LE.le Nat _ raw (p - headerReserve) := by omega
  have h4 : @LE.le Nat _ (p + size) (raw + (size + align - 1 + headerReserve)) := by omega
  exact ⟨h3, h4⟩

/-- C6: for a power-of-two `align`, a non-null pointer `p` returned by the default
`AllocAligned(size, align)` has `p % align = 0`; `AllocAligned` made exactly one call
`Alloc(totalSize)`, which returned a non-null raw block, and `FreeAligned(p)`, run on the
resulting machine or on any later one that still holds the stored word before `p`, makes
exactly the one call `Free(raw)` on that raw block. -/
theorem Allocator.AllocAligned_FreeAligned {σ : Type} (headerReserve : Nat)
    (a : AllocatorImpl σ) (size align k : Nat) (m : Machine σ) (_hpow : align = 2 ^ k)
    (hp : (Allocator.AllocAligned headerReserve a size align m).1 ≠ 0) :
    (Allocator.AllocAligned headerReserve a size align m).1 % align = 0 ∧
    (Allocator.AllocAligned headerReserve a size align m).2.trace =
      m.trace ++ [Event.Alloc (size + align - 1 + headerReserve)] ∧
    (a.Alloc (size + align - 1 + headerReserve) m.ext).1 ≠ 0 ∧
    Allocator.FreeAligned headerReserve a
        (Allocator.AllocAligned headerReserve a size align m).1
        (Allocator.AllocAligned headerReserve a size align m).2 =
      (Allocator.AllocAligned headerReserve a size align m).2.call
        (Event.Free (a.Alloc (size + align - 1 + headerReserve) m.ext).1)
        (a.Free (a.Alloc (size + align - 1 + headerReserve) m.ext).1) ∧
    (∀ m2 : Machine σ,
      m2.load ((Allocator.AllocAligned headerReserve a size align m).1 - headerReserve) =
        (Allocator.AllocAligned headerReserve a size align m).2.load
          ((Allocator.AllocAligned headerReserve a size align m).1 - headerReserve) →
      Allocator.FreeAligned headerReserve a
          (Allocator.AllocAligned headerReserve a size align m).1 m2 =
        m2.call (Event.Free (a.Alloc (size + align - 1 + headerReserve) m.ext).1)
          (a.Free (a.Alloc (size + align - 1 + headerReserve) m.ext).1)) := by
  have hraw : (a.Alloc (size + align - 1 + headerReserve) m.ext).1 ≠ 0 := by
    intro h0
    rw [Allocator.AllocAligned_of_raw_eq_zero headerReserve a size align m h0] at hp
    exact hp rfl
  have hload : (Allocator.AllocAligned headerReserve a size align m).2.load
      ((Allocator.AllocAligned headerReserve a size align m).1 - headerReserve) =
      (a.Alloc (size + align - 1 + headerReserve) m.ext).1 := by
    rw [Allocator.AllocAligned_of_raw_ne_zero headerReserve a size align m hraw]
    simp [Machine.load, Machine.store]
  have hfree : ∀ m2 : Machine σ,
      m2.load ((Allocator.AllocAligned headerReserve a size align m).1 - headerReserve) =
        (Allocator.AllocAligned headerReserve a size align m).2.load
          ((Allocator.AllocAligned headerReserve a size align m).1 - headerReserve) →
      Allocator.FreeAligned headerReserve a
          (Allocator.AllocAligned headerReserve a size align m).1 m2 =
        m2.call (Event.Free (a.Alloc (size + align - 1 + headerReserve) m.ext).1)
          (a.Free (a.Alloc (size + align - 1 + headerReserve) m.ext).1) := by
    intro m2 h2
    rw [hload] at h2
    simp only [Allocator.FreeAligned, AllocatorImpl.callFree, h2]
  refine ⟨?_, ?_, hraw, hfree _ rfl, hfree⟩
  · rw [Allocator.AllocAligned_of_raw_ne_zero headerReserve a size align m hraw]
    exact alignUp_mod _ _
  · rw [Allocator.AllocAligned_of_raw_ne_zero headerReserve a size align m hraw]
    rfl

theorem Allocator.AllocAligned_FreeAligned_witness :
    (Allocator.AllocAligned 8 bumpAllocator 100 16 (Machine.start 4100)).1 = 4112 ∧
    (Allocator.AllocAligned 8 bumpAllocator 100 16 (Machine.start 4100)).1 % 16 = 0 ∧
    (Allocator.FreeAligned 8 bumpAllocator 4112
      (Allocator.AllocAligned 8 bumpAllocator 100 16 (Machine.start 4100)).2).trace =
        [Event.Alloc 123, Event.Free 4100] :=
  ⟨by decide,
   (Allocator.AllocAligned_FreeAligned 8 bumpAllocator 100 16 4 (Machine.start 4100)
      (by decide) (by decide)).1,
   by
    have h := (Allocator.AllocAligned_FreeAligned 8 bumpAllocator 100 16 4 (Machine.start 4100)
      (by decide) (by decide)).2.2.2.1
    have hp : (Allocator.AllocAligned 8 bumpAllocator 100 16 (Machine.start 4100)).1 = 4112 := by
      decide
    rw [hp] at h
    rw [h]
    rfl⟩

/-! ### Construct / Destruct -/

theorem offset_succ (pdata sz k : Nat) : pdata + sz + k * sz = pdata + (k + 1) * sz := by
  rw [Nat.succ_mul]
  omega

theorem foldl_range_succ_shift {σ : Type} (f : Ptr → σ → σ) (pdata sz j : Nat) (s : σ) :
    (List.range (j + 1)).foldl (fun t k => f (pdata + k * sz) t) s =
      (List.range j).foldl (fun t k => f (pdata + sz + k * sz) t) (f pdata s) := by
  simp only [List.range_succ_eq_map, List.foldl_cons, List.foldl_map, offset_succ,
    Nat.zero_mul, Nat.add_zero]

theorem map_range_succ_shift (ev : Ptr → Event) (pdata sz j : Nat) :
    (List.range (j + 1)).map (fun k => ev (pdata + k * sz)) =
      ev pdata :: (List.range j).map (fun k => ev (pdata + sz + k * sz)) := by
  simp only [List.range_succ_eq_map, List.map_cons, List.map_map, Function.comp_def,
    offset_succ, Nat.zero_mul, Nat.add_zero]

/-- The loop of `ConstructArray` when no constructor run throws: it returns after the
remaining `d` constructor calls. -/
theorem ConstructArray_loop_returned {σ : Type} (T : ObjType σ) (count : Nat) :
    ∀ (d i : Nat) (pdata : Ptr) (m : Machine σ), count - i = d →
      (∀ j, j < d → T.ctorThrows (pdata + j * T.sizeof)
        ((List.range j).foldl (fun s k => T.ctor (pdata + k * T.sizeof) s) m.ext) = false) →
      ConstructArray.loop T count i pdata m =
        (Completion.returned,
          { trace := m.trace ++
              (List.range d).map (fun k => Event.construct (pdata + k * T.sizeof)),
            mem := m.mem,
            ext := (List.range d).foldl (fun s k => T.ctor (pdata + k * T.sizeof) s) m.ext }) := by
  intro d
  induction d with
  | zero =>
    intro i pdata m h _
    rw [ConstructArray.loop, if_neg (by omega)]
    simp
  | succ d ih =>
    intro i pdata m h hno
    have h0 : Construct_throws T pdata m = false := by
      simpa [Construct_throws, placementNew] using hno 0 (Nat.succ_pos d)
    rw [ConstructArray.loop, if_pos (by omega), h0]
    simp only [Bool.false_eq_true, if_false]
    rw [ih (i + 1) (pdata + T.sizeof) _ (by omega)]
    · rw [foldl_range_succ_shift (fun loc s => T.ctor loc s),
        map_range_succ_shift Event.construct]
      simp [Construct, placementNew, Machine.call]
    · intro j hj
      have hj1 := hno (j + 1) (Nat.succ_lt_succ hj)
      rw [foldl_range_succ_shift (fun loc s => T.ctor loc s), ← offset_succ] at hj1
      simpa [Construct, placementNew, Machine.call] using hj1

/-- The loop of `ConstructArray` when the `k`-th of the remaining constructor runs is the
first that throws: the loop is left by the exception after `k + 1` constructor calls. -/
theorem ConstructArray_loop_threw {σ : Type} (T : ObjType σ) (count : Nat) :
    ∀ (k d i : Nat) (pdata : Ptr) (m : Machine σ), count - i = d → k < d →
      (∀ j, j < k → T.ctorThrows (pdata + j * T.sizeof)
        ((List.range j).foldl (fun s k => T.ctor (pdata + k * T.sizeof) s) m.ext) = false) →
      T.ctorThrows (pdata + k * T.sizeof)
        ((List.range k).foldl (fun s k => T.ctor (pdata + k * T.sizeof) s) m.ext) = true →
      ConstructArray.loop T count i pdata m =
        (Completion.threw,
          { trace := m.trace ++
              (List.range (k + 1)).map (fun k => Event.construct (pdata + k * T.sizeof)),
            mem := m.mem,
            ext := (List.range (k + 1)).foldl
              (fun s k => T.ctor (pdata + k * T.sizeof) s) m.ext }) := by
  intro k
  induction k with
  | zero =>
    intro d i pdata m h hk _ hthrow
    have h0 : Construct_throws T pdata m = true := by
      simpa [Construct_throws, placementNew] using hthrow
    rw [ConstructArray.loop, if_pos (by omega), h0]
    simp [Construct, placementNew, Machine.call, List.range_succ]
  | succ k ih =>
    intro d i pdata m h hk hno hthrow
    have h0 : Construct_throws T pdata m = false := by
      simpa [Construct_throws, placementNew] using hno 0 (Nat.succ_pos k)
    rw [ConstructArray.loop, if_pos (by omega), h0]
    simp only [Bool.false_eq_true, if_false]
    rw [ih (d - 1) (i + 1) (pdata + T.sizeof) _ (by omega) (by omega)]
    · rw [foldl_range_succ_shift (fun loc s => T.ctor loc s) pdata T.sizeof (k + 1),
        map_range_succ_shift Event.construct pdata T.sizeof (k + 1)]
      simp [Construct, placementNew, Machine.call]
    · intro j hj
      have hj1 := hno (j + 1) (Nat.succ_lt_succ hj)
      rw [foldl_range_succ_shift (fun loc s => T.ctor loc s), ← offset_succ] at hj1
      simpa [Construct, placementNew, Machine.call] using hj1
    · rw [foldl_range_succ_shift (fun loc s => T.ctor loc s), ← offset_succ] at hthrow
      simpa [Construct, placementNew, Machine.call] using hthrow

/-- The loop of `ConstructArray` with a source when no constructor run throws: it returns after the
remaining `d` constructor calls. -/
theorem ConstructArray_source_loop_returned {σ : Type} (T : ObjType σ) (count : Nat)
    (source : Ptr) :
    ∀ (d i : Nat) (pdata : Ptr) (m : Machine σ), count - i = d →
      (∀ j, j < d → T.copyCtorThrows (pdata + j * T.sizeof) source
        ((List.range j).foldl (fun s k => T.copyCtor (pdata + k * T.sizeof) source s) m.ext) = false) →
      ConstructArray_source.loop T count source i pdata m =
        (Completion.returned,
          { trace := m.trace ++
              (List.range d).map (fun k => Event.constructCopy (pdata + k * T.sizeof) source),
            mem := m.mem,
            ext := (List.range d).foldl (fun s k => T.copyCtor (pdata + k * T.sizeof) source s) m.ext }) := by
  intro d
  induction d with
  | zero =>
    intro i pdata m h _
    rw [ConstructArray_source.loop, if_neg (by omega)]
    simp
  | succ d ih =>
    intro i pdata m h hno
    have h0 : Construct_source_throws T pdata source m = false := by
      simpa [Construct_source_throws, placementNew] using hno 0 (Nat.succ_pos d)
    rw [ConstructArray_source.loop, if_pos (by omega), h0]
    simp only [Bool.false_eq_true, if_false]
    rw [ih (i + 1) (pdata + T.sizeof) _ (by omega)]
    · rw [foldl_range_succ_shift (fun loc s => T.copyCtor loc source s),
        map_range_succ_shift (fun loc => Event.constructCopy loc source)]
      simp [Construct_source, placementNew, Machine.call]
    · intro j hj
      have hj1 := hno (j + 1) (Nat.succ_lt_succ hj)
      rw [foldl_range_succ_shift (fun loc s => T.copyCtor loc source s), ← offset_succ] at hj1
      simpa [Construct_source, placementNew, Machine.call] using hj1

/-- The loop of `ConstructArray` with a source when the `k`-th of the remaining constructor runs is the
first that throws: the loop is left by the exception after `k + 1` constructor calls. -/
theorem ConstructArray_source_loop_threw {σ : Type} (T : ObjType σ) (count : Nat)
    (source : Ptr) :
    ∀ (k d i : Nat) (pdata : Ptr) (m : Machine σ), count - i = d → k < d →
      (∀ j, j < k → T.copyCtorThrows (pdata + j * T.sizeof) source
        ((List.range j).foldl (fun s k => T.copyCtor (pdata + k * T.sizeof) source s) m.ext) = false) →
      T.copyCtorThrows (pdata + k * T.sizeof) source
        ((List.range k).foldl (fun s k => T.copyCtor (pdata + k * T.sizeof) source s) m.ext) = true →
      ConstructArray_source.loop T count source i pdata m =
        (Completion.threw,
          { trace := m.trace ++
              (List.range (k + 1)).map (fun k => Event.constructCopy (pdata + k * T.sizeof) source),
            mem := m.mem,
            ext := (List.range (k + 1)).foldl
              (fun s k => T.copyCtor (pdata + k * T.sizeof) source s) m.ext }) := by
  intro k
  induction k with
  | zero =>
    intro d i pdata m h hk _ hthrow
    have h0 : Construct_source_throws T pdata source m = true := by
      simpa [Construct_source_throws, placementNew] using hthrow
    rw [ConstructArray_source.loop, if_pos (by omega), h0]
    simp [Construct_source, placementNew, Machine.call, List.range_succ]
  | succ k ih =>
    intro d i pdata m h hk hno hthrow
    have h0 : Construct_source_throws T pdata source m = false := by
      simpa [Construct_source_throws, placementNew] using hno 0 (Nat.succ_pos k)
    rw [ConstructArray_source.loop, if_pos (by omega), h0]
    simp only [Bool.false_eq_true, if_false]
    rw [ih (d - 1) (i + 1) (pdata + T.sizeof) _ (by omega) (by omega)]
    · rw [foldl_range_succ_shift (fun loc s => T.copyCtor loc source s) pdata T.sizeof (k + 1),
        map_range_succ_shift (fun loc => Event.constructCopy loc source) pdata T.sizeof (k + 1)]
      simp [Construct_source, placementNew, Machine.call]
    · intro j hj
      have hj1 := hno (j + 1) (Nat.succ_lt_succ hj)
      rw [foldl_range_succ_shift (fun loc s => T.copyCtor loc source s), ← offset_succ] at hj1
      simpa [Construct_source, placementNew, Machine.call] using hj1
    · rw [foldl_range_succ_shift (fun loc s => T.copyCtor loc source s), ← offset_succ] at hthrow
      simpa [Construct_source, placementNew, Machine.call] using hthrow

theorem DestructArray_loop_eq {σ : Type} (T : ObjType σ) (count : Nat) :
    ∀ (d i : Nat) (pobj : Ptr) (m : Machine σ), count - i = d →
      DestructArray.loop T count i pobj m =
        { trace := m.trace ++ (List.range d).map (fun k => Event.destruct (pobj + k * T.sizeof)),
          mem := m.mem,
          ext := (List.range d).foldl (fun s k => T.dtor (pobj + k * T.sizeof) s) m.ext } := by
  intro d
  induction d with
  | zero =>
    intro i pobj m h
    rw [DestructArray.loop, if_neg (by omega)]
    simp
  | succ d ih =>
    intro i pobj m h
    rw [DestructArray.loop, if_pos (by omega), ih (i + 1) (pobj + T.sizeof) _ (by omega)]
    simp only [Machine.call, List.range_succ_eq_map, List.map_cons,
      List.map_map, List.foldl_cons, List.foldl_map, Function.comp_def, offset_succ,
      List.append_assoc, List.singleton_append, Nat.zero_mul, Nat.add_zero]

/-- C7: `Construct<T>(p)` returns `p` itself, and `Construct<T>(p)` followed by `Destruct<T>`
on the returned pointer makes exactly two calls, in this order: the default constructor of `T`
at `p`, then the destructor of `T` at `p`.  So exactly one initializer and exactly one
finalizer run, both at `p`, and no call obtains or releases memory through the allocator. -/
theorem Construct_Destruct_roundtrip {σ : Type} (T : ObjType σ) (p : Ptr) (m : Machine σ) :
    (Construct T p m).1 = p ∧
    (Construct T p m).2.trace = m.trace ++ [Event.construct p] ∧
    Destruct T (Construct T p m).1 (Construct T p m).2 =
      { trace := m.trace ++ [Event.construct p, Event.destruct p],
        mem := m.mem,
        ext := T.dtor p (T.ctor p m.ext) } ∧
    ([Event.construct p, Event.destruct p].filter Event.isInitializer = [Event.construct p]) ∧
    ([Event.construct p, Event.destruct p].filter Event.isFinalizer = [Event.destruct p]) ∧
    ([Event.construct p, Event.destruct p].filter Event.isAllocatorCall = []) := by
  refine ⟨rfl, rfl, ?_, rfl, rfl, rfl⟩
  simp [Construct, Destruct, placementNew, Machine.call]

theorem Construct_Destruct_roundtrip_witness :
    (Destruct liveSetType (Construct liveSetType 1000 (Machine.start [])).1
      (Construct liveSetType 1000 (Machine.start [])).2).trace =
        [Event.construct 1000, Event.destruct 1000] ∧
    (Destruct liveSetType (Construct liveSetType 1000 (Machine.start [])).1
      (Construct liveSetType 1000 (Machine.start [])).2).ext = [] := by
  rw [(Construct_Destruct_roundtrip liveSetType 1000 (Machine.start [])).2.2.1]
  exact ⟨by decide, by decide⟩

/-- C8 (as stated, refuted): for a type whose constructor throws at the second element,
`ConstructArray<T>(p, 3)` is left by the exception after the constructor calls at `p` and
`p + sizeof(T)`: one element is constructed, no constructor ever runs at `p + 2 * sizeof(T)`.
So it is not true that for every type `T` the calls made are the `n` constructor calls at
`p + i * sizeof(T)`, `i = 0, ..., n - 1`. -/
theorem ConstructArray_throw_counterexample :
    (ConstructArray (throwingType 1004) 1000 3 (Machine.start [])).1 = Completion.threw ∧
    (ConstructArray (throwingType 1004) 1000 3 (Machine.start [])).2.trace =
      [Event.construct 1000, Event.construct 1004] ∧
    (ConstructArray (throwingType 1004) 1000 3 (Machine.start [])).2.ext = [1000] ∧
    ¬ (∀ (T : ObjType (List Ptr)) (p n : Nat) (m : Machine (List Ptr)),
        (ConstructArray T p n m).2.trace =
          m.trace ++ (List.range n).map (fun i => Event.construct (p + i * T.sizeof))) := by
  have h : ConstructArray (throwingType 1004) 1000 3 (Machine.start []) =
      (Completion.threw,
        { trace := [Event.construct 1000, Event.construct 1004],
          mem := fun _ => 0,
          ext := [1000] }) := by
    rw [ConstructArray,
      ConstructArray_loop_threw (throwingType 1004) 3 1 3 0 1000 (Machine.start []) rfl
        (by decide) (by intro j hj; interval_cases j; rfl) rfl]
    rfl
  refine ⟨by rw [h], by rw [h], by rw [h], ?_⟩
  intro hall
  have h3 := hall (throwingType 1004) 1000 3 (Machine.start [])
  rw [h] at h3
  exact absurd h3 (by decide)

/-- C8 (amended): when no constructor run of the loop throws, `ConstructArray<T>(p, n)`
returns after exactly `n` calls, the default constructor of `T` at `p + i * sizeof(T)` for
`i = 0, ..., n - 1` in this order, and `ConstructArray<T>(p, n, source)` returns after exactly
`n` calls, the copy constructor of `T` at `p + i * sizeof(T)` with the same `source` for
`i = 0, ..., n - 1` in this order; with `n = 0` the call returns with the machine as it was.
When the constructor run for element `k` is the first that throws, the call is left by the
exception after exactly the `k + 1` constructor calls for the elements `0, ..., k` in this
order: the elements before `k` stay constructed and no later location is touched. -/
theorem ConstructArray_spec {σ : Type} (T : ObjType σ) (p : Ptr) (n : Nat) (source : Ptr)
    (m : Machine σ) :
    ((∀ i, i < n → T.ctorThrows (p + i * T.sizeof)
        ((List.range i).foldl (fun s k => T.ctor (p + k * T.sizeof) s) m.ext) = false) →
      ConstructArray T p n m =
        (Completion.returned,
          { trace := m.trace ++ (List.range n).map (fun i => Event.construct (p + i * T.sizeof)),
            mem := m.mem,
            ext := (List.range n).foldl (fun s i => T.ctor (p + i * T.sizeof) s) m.ext })) ∧
    ((∀ i, i < n → T.copyCtorThrows (p + i * T.sizeof) source
        ((List.range i).foldl (fun s k => T.copyCtor (p + k * T.sizeof) source s) m.ext)
          = false) →
      ConstructArray_source T p n source m =
        (Completion.returned,
          { trace := m.trace ++
              (List.range n).map (fun i => Event.constructCopy (p + i * T.sizeof) source),
            mem := m.mem,
            ext := (List.range n).foldl
              (fun s i => T.copyCtor (p + i * T.sizeof) source s) m.ext })) ∧
    ((List.range n).map (fun i => Event.construct (p + i * T.sizeof))).length = n ∧
    ((List.range n).map (fun i => Event.constructCopy (p + i * T.sizeof) source)).length = n ∧
    ConstructArray T p 0 m = (Completion.returned, m) ∧
    ConstructArray_source T p 0 source m = (Completion.returned, m) ∧
    (∀ k, k < n →
      (∀ i, i < k → T.ctorThrows (p + i * T.sizeof)
        ((List.range i).foldl (fun s k => T.ctor (p + k * T.sizeof) s) m.ext) = false) →
      T.ctorThrows (p + k * T.sizeof)
        ((List.range k).foldl (fun s k => T.ctor (p + k * T.sizeof) s) m.ext) = true →
      ConstructArray T p n m =
        (Completion.threw,
          { trace := m.trace ++
              (List.range (k + 1)).map (fun i => Event.construct (p + i * T.sizeof)),
            mem := m.mem,
            ext := (List.range (k + 1)).foldl
              (fun s i => T.ctor (p + i * T.sizeof) s) m.ext })) ∧
    (∀ k, k < n →
      (∀ i, i < k → T.copyCtorThrows (p + i * T.sizeof) source
        ((List.range i).foldl (fun s k => T.copyCtor (p + k * T.sizeof) source s) m.ext)
          = false) →
      T.copyCtorThrows (p + k * T.sizeof) source
        ((List.range k).foldl (fun s k => T.copyCtor (p + k * T.sizeof) source s) m.ext)
          = true →
      ConstructArray_source T p n source m =
        (Completion.threw,
          { trace := m.trace ++
              (List.range (k + 1)).map (fun i => Event.constructCopy (p + i * T.sizeof) source),
            mem := m.mem,
            ext := (List.range (k + 1)).foldl
              (fun s i => T.copyCtor (p + i * T.sizeof) source s) m.ext })) := by
  refine ⟨?_, ?_, by simp, by simp, ?_, ?_, ?_, ?_⟩
  · intro hno
    exact ConstructArray_loop_returned T n n 0 p m (by omega) hno
  · intro hno
    exact ConstructArray_source_loop_returned T n source n 0 p m (by omega) hno
  · rw [ConstructArray, ConstructArray.loop, if_neg (by omega)]
  · rw [ConstructArray_source, ConstructArray_source.loop, if_neg (by omega)]
  · intro k hk hno hthrow
    exact ConstructArray_loop_threw T n k n 0 p m (by omega) hk hno hthrow
  · intro k hk hno hthrow
    exact ConstructArray_source_loop_threw T n source k n 0 p m (by omega) hk hno hthrow

theorem ConstructArray_spec_witness :
    ConstructArray liveSetType 1000 3 (Machine.start []) =
      (Completion.returned,
        { trace := [] ++ (List.range 3).map (fun i => Event.construct (1000 + i * 4)),
          mem := fun _ => 0,
          ext := (List.range 3).foldl (fun s i => (1000 + i * 4) :: s) [] }) ∧
    [] ++ (List.range 3).map (fun i => Event.construct (1000 + i * 4)) =
      [Event.construct 1000, Event.construct 1004, Event.construct 1008] ∧
    (List.range 3).foldl (fun s i => (1000 + i * 4) :: s) [] = [1008, 1004, 1000] ∧
    ConstructArray_source (throwingType 1008) 1000 3 500 (Machine.start []) =
      (Completion.threw,
        { trace := [] ++ (List.range 3).map (fun i => Event.constructCopy (1000 + i * 4) 500),
          mem := fun _ => 0,
          ext := (List.range 3).foldl
            (fun s i => if 1000 + i * 4 = 1008 then s else (1000 + i * 4) :: s) [] }) ∧
    (List.range 3).foldl
      (fun s i => if 1000 + i * 4 = 1008 then s else (1000 + i * 4) :: s) [] = [1004, 1000] :=
  ⟨(ConstructArray_spec liveSetType 1000 3 500 (Machine.start [])).1 (fun _ _ => rfl),
   by decide,
   by decide,
   (ConstructArray_spec (throwingType 1008) 1000 3 500 (Machine.start [])).2.2.2.2.2.2.2 2
     (by decide) (by decide) rfl,
   by decide⟩

/-- C9: `DestructArray<T>(pobj, n)` makes exactly `n` calls, the destructor of `T` at
`pobj + i * sizeof(T)` (the element `pobj[i]`) for `i = 0, ..., n - 1`, once each, and
`Destruct<T>(pobj)` makes exactly one call, the destructor of `T` at `pobj`; none of the calls
is a call to the allocator, so no memory is released. -/
theorem DestructArray_spec {σ : Type} (T : ObjType σ) (pobj : Ptr) (n : Nat) (m : Machine σ) :
    DestructArray T pobj n m =
      { trace := m.trace ++ (List.range n).map (fun i => Event.destruct (pobj + i * T.sizeof)),
        mem := m.mem,
        ext := (List.range n).foldl (fun s i => T.dtor (pobj + i * T.sizeof) s) m.ext } ∧
    ((List.range n).map (fun i => Event.destruct (pobj + i * T.sizeof))).length = n ∧
    ((List.range n).map (fun i => Event.destruct (pobj + i * T.sizeof))).filter
      Event.isAllocatorCall = [] ∧
    Destruct T pobj m =
      { trace := m.trace ++ [Event.destruct pobj], mem := m.mem, ext := T.dtor pobj m.ext } ∧
    (Event.destruct pobj).isAllocatorCall = false := by
  refine ⟨DestructArray_loop_eq T n n 0 pobj m (by omega), by simp, ?_, rfl, rfl⟩
  rw [List.filter_eq_nil_iff]
  intro e he
  simp only [List.mem_map, List.mem_range] at he
  obtain ⟨i, _, rfl⟩ := he
  simp [Event.isAllocatorCall]

theorem DestructArray_spec_witness :
    (DestructArray liveSetType 1000 3 (Machine.start [1008, 1004, 1000])).trace =
      [Event.destruct 1000, Event.destruct 1004, Event.destruct 1008] ∧
    (DestructArray liveSetType 1000 3 (Machine.start [1008, 1004, 1000])).ext = [] := by
  rw [(DestructArray_spec liveSetType 1000 3 (Machine.start [1008, 1004, 1000])).1]
  exact ⟨by decide, by decide⟩

end OVR
